import Mathlib

/-!
# Kelvin: schedule lookup, timestamp migration and the fast tick

A shallow embedding of `schedule.go`, `configuration_migration.go` and the
fast-tick branch of the control loop in `kelvin.go`.

## Time model

The Go sources work on `time.Time` values of the standard library.  An
instant is a single integer, the number of nanoseconds elapsed since
`0001-01-01 00:00:00 UTC`.  Calendar fields are computed by the same cycle
decomposition the Go runtime uses (400-year, 100-year, 4-year and 1-year
cycles followed by the `daysBefore` month table).

A `time.Time` also carries a `*Location`.  The functions whose name ends in
`In` take the location as an argument and follow Go: the wall clock of an
instant is the instant plus the offset the location has at that instant, and
`time.Date(..., loc)` looks the offset up as Go does.  All times of one lookup
share the location.  The functions without `In` are the same functions in a
location whose offset is always zero (`Location.UTC`), where no lookup takes
place; `currentIntervalIn_UTC` and the lemmas before it state this.  Results
on `findTargetTimes` and `currentInterval` are stated for that location;
`currentIntervalIn` is used where the zone transitions of a location change
the outcome.  The finite range of Go's 64-bit second counter is outside the
model.
-/

namespace Kelvin

/-! ## The `time` package -/

/-- An instant: nanoseconds since `0001-01-01 00:00:00 UTC`. -/
structure Time where
  ns : Int
deriving DecidableEq, Repr

def nsPerSecond : Int := 1000000000

def secondsPerMinute : Int := 60

def secondsPerHour : Int := 3600

def secondsPerDay : Int := 86400

def nsPerDay : Int := 86400000000000

/-- Go `t.After(u)`: `t` is strictly later than `u`. -/
def Time.After (t u : Time) : Bool := decide (u.ns < t.ns)

/-- Go `t.Before(u)`: `t` is strictly earlier than `u`. -/
def Time.Before (t u : Time) : Bool := decide (t.ns < u.ns)

/-- Cumulative days before each month of a non-leap year (Go `daysBefore`). -/
def daysBefore : List Int := [0, 31, 59, 90, 120, 151, 181, 212, 243, 273, 304, 334, 365]

/-- Table lookup `daysBefore[i]`. -/
def daysBeforeAt (i : Int) : Int := daysBefore.getD i.toNat 0

/-- Go `isLeap`. -/
def isLeap (year : Int) : Bool :=
  year % 4 == 0 && (year % 100 != 0 || year % 400 == 0)

/-- Go `norm(hi, lo, base)`: carry `lo` into `hi` so that `0 ≤ lo < base`. -/
def norm (hi lo base : Int) : Int × Int := (hi + lo / base, lo % base)

/-- Go `daysSinceEpoch`: days from `0001-01-01` to January 1 of `year`. -/
def daysSinceEpoch (year : Int) : Int :=
  let y := year - 1
  let n400 := y / 400
  let y1 := y - 400 * n400
  let n100 := y1 / 100
  let y2 := y1 - 100 * n100
  let n4 := y2 / 4
  let y3 := y2 - 4 * n4
  146097 * n400 + 36524 * n100 + 1461 * n4 + 365 * y3

/-- First half of Go `absDate`: the year and the zero-based day of the year
of day number `d`. -/
def absYear (d : Int) : Int × Int :=
  let n400 := d / 146097
  let d1 := d - 146097 * n400
  let n100 := d1 / 36524
  let n100 := n100 - n100 / 4
  let d2 := d1 - 36524 * n100
  let n4 := d2 / 1461
  let d3 := d2 - 1461 * n4
  let n1 := d3 / 365
  let n1 := n1 - n1 / 4
  let yday := d3 - 365 * n1
  (400 * n400 + 100 * n100 + 4 * n4 + n1 + 1, yday)

/-- Second half of Go `absDate`: month (1..12) and day of the month from the
zero-based day of the year. -/
def monthDay (leap : Bool) (yday : Int) : Int × Int :=
  if leap && yday == 59 then (2, 29)
  else
    let day := if leap && decide (59 < yday) then yday - 1 else yday
    let month := day / 31
    let e := daysBeforeAt (month + 1)
    if e ≤ day then (month + 2, day - e + 1)
    else (month + 1, day - daysBeforeAt month + 1)

/-- Go `absDate`: civil date of day number `d`. -/
def absDate (d : Int) : Int × Int × Int :=
  let yy := absYear d
  let md := monthDay (isLeap yy.1) yy.2
  (yy.1, md.1, md.2)

/-- Day number of an instant. -/
def Time.absDay (t : Time) : Int := t.ns / nsPerDay

/-- Go `t.Date()` for a time in a location with offset zero: year, month, day. -/
def Time.Date (t : Time) : Int × Int × Int := absDate t.absDay

/-- Go `t.Day()`: day of the month. -/
def Time.Day (t : Time) : Int := t.Date.2.2

/-- Go `t.Clock()` for a time in a location with offset zero: hour, minute,
second within the day. -/
def Time.Clock (t : Time) : Int × Int × Int :=
  let sec := (t.ns / nsPerSecond) % secondsPerDay
  let hour := sec / secondsPerHour
  let sec := sec - hour * secondsPerHour
  let min := sec / secondsPerMinute
  (hour, min, sec - min * secondsPerMinute)

/-- Go `t.Nanosecond()`. -/
def Time.Nanosecond (t : Time) : Int := t.ns % nsPerSecond

/-- Go `time.Date(year, month, day, hour, min, sec, nsec, time.UTC)`: the
instant whose wall clock reads the given fields in a location with offset
zero.  `DateIn` adds the zone lookup of a general location. -/
def Date (year month day hour min sec nsec : Int) : Time :=
  let ym := norm year (month - 1) 12
  let year := ym.1
  let month := ym.2 + 1
  let sn := norm sec nsec nsPerSecond
  let ms := norm min sn.1 60
  let hm := norm hour ms.1 60
  let dh := norm day hm.1 24
  let d := daysSinceEpoch year + daysBeforeAt (month - 1)
  let d := if isLeap year && decide (3 ≤ month) then d + 1 else d
  let d := d + (dh.1 - 1)
  let abs := d * secondsPerDay + (dh.2 * secondsPerHour + hm.2 * secondsPerMinute + ms.2)
  ⟨abs * nsPerSecond + sn.2⟩

/-- Go `t.AddDate(years, months, days)` for a time in a location with offset
zero. -/
def Time.AddDate (t : Time) (years months days : Int) : Time :=
  let ymd := t.Date
  let hms := t.Clock
  Kelvin.Date (ymd.1 + years) (ymd.2.1 + months) (ymd.2.2 + days) hms.1 hms.2.1 hms.2.2 t.Nanosecond

/-! ## `schedule.go` -/

/-- A waypoint: an instant with its target colour temperature and brightness. -/
structure TimeStamp where
  Time : Time
  ColorTemperature : Int
  Brightness : Int
deriving DecidableEq, Repr

/-- The pair of waypoints bracketing an instant. -/
structure Interval where
  Start : TimeStamp
  End : TimeStamp
deriving DecidableEq, Repr

/-- All relevant timestamps of one day. -/
structure Schedule where
  endOfDay : Time
  sunrise : TimeStamp
  sunset : TimeStamp
  enableWhenLightsAppear : Bool
  targetTimes : List TimeStamp

/-- One iteration of the `for ... range candidates` loop of `findTargetTimes`;
the state is the pair `(beforeCandidate, afterCandidate)`. -/
def scanStep (timestamp : Time) (acc : TimeStamp × TimeStamp) (candidate : TimeStamp) :
    TimeStamp × TimeStamp :=
  if candidate.Time.Before timestamp && candidate.Time.After acc.1.Time then
    (candidate, acc.2)
  else if candidate.Time.After timestamp && candidate.Time.Before acc.2.Time then
    (acc.1, candidate)
  else acc

/-- The two initial out-of-range bounds of `findTargetTimes`. -/
def initialBounds (timestamp : Time) : TimeStamp × TimeStamp :=
  (⟨timestamp.AddDate 0 0 (-2), 0, 0⟩, ⟨timestamp.AddDate 0 0 2, 0, 0⟩)

/-- The bounds selected by the loop of `findTargetTimes`. -/
def scan (timestamp : Time) (candidates : List TimeStamp) : TimeStamp × TimeStamp :=
  candidates.foldl (scanStep timestamp) (initialBounds timestamp)

/-- Go `findTargetTimes` for times in a location with offset zero; `none` is
the `log.Fatal` branch, which ends the process. -/
def findTargetTimes (timestamp : Time) (candidates : List TimeStamp) : Option Interval :=
  let ba := scan timestamp candidates
  if ba.1.Time.Day != timestamp.Day || ba.2.Time.Day != timestamp.Day then none
  else some ⟨ba.1, ba.2⟩

/-- The "fix dummy values" block of `currentInterval`. -/
def fixDummyValues (interval : Interval) : Interval :=
  let interval :=
    if interval.Start.ColorTemperature == -1 && interval.Start.Brightness == -1 then
      { interval with
        Start := { interval.Start with
          ColorTemperature := interval.End.ColorTemperature
          Brightness := interval.End.Brightness } }
    else interval
  if interval.End.ColorTemperature == -1 && interval.End.Brightness == -1 then
    { interval with
      End := { interval.End with
        ColorTemperature := interval.Start.ColorTemperature
        Brightness := interval.Start.Brightness } }
  else interval

/-- The synthetic start-of-day boundary built by `currentInterval` for a
timestamp in a location with offset zero; `startOfDayIn` is the boundary in a
general location. -/
def startOfDay (timestamp : Time) : TimeStamp :=
  let ymd := timestamp.Date
  ⟨Date ymd.1 ymd.2.1 ymd.2.2 0 0 0 0, -1, -1⟩

/-- The synthetic end-of-day boundary built by `currentInterval` for a
timestamp in a location with offset zero; `endOfDayIn` is the boundary in a
general location. -/
def endOfDay (timestamp : Time) : TimeStamp :=
  let ymd := timestamp.Date
  ⟨Date ymd.1 ymd.2.1 ymd.2.2 23 59 59 0, -1, -1⟩

/-- The candidate list handed to `findTargetTimes` by `currentInterval`. -/
def candidates (schedule : Schedule) (timestamp : Time) : List TimeStamp :=
  schedule.targetTimes ++ [startOfDay timestamp, endOfDay timestamp]

/-- Outcome of `Schedule.currentInterval`. -/
inductive Lookup where
  /-- normal return `(interval, nil)` -/
  | ok (interval : Interval)
  /-- return with the "lays after the end of the current schedule" error; the
  interval returned alongside is a placeholder built from `time.Now()` -/
  | outOfRange
  /-- `log.Fatal("Could not find targetTime in candidates.")`: no return -/
  | fatal
deriving DecidableEq, Repr

/-- Go `(*Schedule).currentInterval` for times in a location with offset zero;
`Schedule.currentIntervalIn` is the function in a general location. -/
def Schedule.currentInterval (schedule : Schedule) (timestamp : Time) : Lookup :=
  if timestamp.After schedule.endOfDay then Lookup.outOfRange
  else
    match findTargetTimes timestamp (candidates schedule timestamp) with
    | none => Lookup.fatal
    | some interval => Lookup.ok (fixDummyValues interval)

/-! ### The schedule of the documented examples -/

/-- An instant of 2019-03-15. -/
def at15 (hour min sec nsec : Int) : Time := Date 2019 3 15 hour min sec nsec

/-- Waypoints `07:00 -> (2700, 40)` and `22:00 -> (4000, 100)`, end of day
`23:59:59`. -/
def exampleSchedule : Schedule where
  endOfDay := at15 23 59 59 0
  sunrise := ⟨at15 6 30 0 0, 2700, 40⟩
  sunset := ⟨at15 18 30 0 0, 4000, 100⟩
  enableWhenLightsAppear := false
  targetTimes := [⟨at15 7 0 0 0, 2700, 40⟩, ⟨at15 22 0 0 0, 4000, 100⟩]

/-- A schedule without any target time, for 2019-03-15. -/
def emptySchedule : Schedule where
  endOfDay := at15 23 59 59 0
  sunrise := ⟨at15 6 30 0 0, 2700, 40⟩
  sunset := ⟨at15 18 30 0 0, 4000, 100⟩
  enableWhenLightsAppear := false
  targetTimes := []

/-! ## Locations

`time.Date`, `Date()`, `Day()`, `Clock()` and `AddDate` in a location with zone
transitions.  The argument of `lookup` and the bounds of a zone period are
seconds since `0001-01-01 00:00:00 UTC` (Go counts them from 1970). -/

/-- Result of Go `(*Location).lookup(sec)`: the offset in force, in seconds east
of UTC, and the period `[start, stop)` of instants over which it is in force. -/
structure Zone where
  offset : Int
  start : Int
  stop : Int
deriving DecidableEq, Repr

/-- A Go `*Location`, by its `lookup` method. -/
structure Location where
  lookup : Int → Zone

/-- Go `time.UTC`: offset zero at every instant. -/
def Location.UTC : Location where
  lookup := fun _ => ⟨0, -9223372036854775808, 9223372036854775807⟩

/-- Go `t.abs()`: the wall-clock seconds of an instant in a location. -/
def Time.absIn (loc : Location) (t : Time) : Int :=
  let sec := t.ns / nsPerSecond
  sec + (loc.lookup sec).offset

/-- Go `t.Date()` for a time in `loc`. -/
def Time.DateIn (loc : Location) (t : Time) : Int × Int × Int :=
  absDate (t.absIn loc / secondsPerDay)

/-- Go `t.Day()` for a time in `loc`. -/
def Time.DayIn (loc : Location) (t : Time) : Int := (t.DateIn loc).2.2

/-- Go `t.Clock()` for a time in `loc`. -/
def Time.ClockIn (loc : Location) (t : Time) : Int × Int × Int :=
  let sec := t.absIn loc % secondsPerDay
  let hour := sec / secondsPerHour
  let sec := sec - hour * secondsPerHour
  let min := sec / secondsPerMinute
  (hour, min, sec - min * secondsPerMinute)

/-- Go `time.Date(year, month, day, hour, min, sec, nsec, loc)`: the wall-clock
reading is first taken as an instant, the zone at that instant is looked up,
and the instant is moved back by its offset; when the moved instant falls
outside the period of that zone, the offset at the moved instant is used. -/
def DateIn (loc : Location) (year month day hour min sec nsec : Int) : Time :=
  let wall := Date year month day hour min sec nsec
  let unix := wall.ns / nsPerSecond
  let zone := loc.lookup unix
  let unix :=
    if zone.offset != 0 then
      let utc := unix - zone.offset
      let offset :=
        if decide (utc < zone.start) || decide (zone.stop ≤ utc) then (loc.lookup utc).offset
        else zone.offset
      unix - offset
    else unix
  ⟨unix * nsPerSecond + wall.ns % nsPerSecond⟩

/-- Go `t.AddDate(years, months, days)` for a time in `loc`. -/
def Time.AddDateIn (loc : Location) (t : Time) (years months days : Int) : Time :=
  let ymd := t.DateIn loc
  let hms := t.ClockIn loc
  Kelvin.DateIn loc (ymd.1 + years) (ymd.2.1 + months) (ymd.2.2 + days) hms.1 hms.2.1 hms.2.2
    t.Nanosecond

/-- The two initial out-of-range bounds of `findTargetTimes`, in `loc`. -/
def initialBoundsIn (loc : Location) (timestamp : Time) : TimeStamp × TimeStamp :=
  (⟨timestamp.AddDateIn loc 0 0 (-2), 0, 0⟩, ⟨timestamp.AddDateIn loc 0 0 2, 0, 0⟩)

/-- The bounds selected by the loop of `findTargetTimes`, in `loc`. -/
def scanIn (loc : Location) (timestamp : Time) (candidates : List TimeStamp) :
    TimeStamp × TimeStamp :=
  candidates.foldl (scanStep timestamp) (initialBoundsIn loc timestamp)

/-- Go `findTargetTimes` for times in `loc`; `none` is the `log.Fatal` branch. -/
def findTargetTimesIn (loc : Location) (timestamp : Time) (candidates : List TimeStamp) :
    Option Interval :=
  let ba := scanIn loc timestamp candidates
  if ba.1.Time.DayIn loc != timestamp.DayIn loc || ba.2.Time.DayIn loc != timestamp.DayIn loc then
    none
  else some ⟨ba.1, ba.2⟩

/-- The synthetic start-of-day boundary built by `currentInterval`:
`time.Date(yr, mth, dy, 0, 0, 0, 0, timestamp.Location())`. -/
def startOfDayIn (loc : Location) (timestamp : Time) : TimeStamp :=
  let ymd := timestamp.DateIn loc
  ⟨DateIn loc ymd.1 ymd.2.1 ymd.2.2 0 0 0 0, -1, -1⟩

/-- The synthetic end-of-day boundary built by `currentInterval`:
`time.Date(yr, mth, dy, 23, 59, 59, 0, timestamp.Location())`. -/
def endOfDayIn (loc : Location) (timestamp : Time) : TimeStamp :=
  let ymd := timestamp.DateIn loc
  ⟨DateIn loc ymd.1 ymd.2.1 ymd.2.2 23 59 59 0, -1, -1⟩

/-- The candidate list handed to `findTargetTimes` by `currentInterval`, in
`loc`. -/
def candidatesIn (loc : Location) (schedule : Schedule) (timestamp : Time) : List TimeStamp :=
  schedule.targetTimes ++ [startOfDayIn loc timestamp, endOfDayIn loc timestamp]

/-- Go `(*Schedule).currentInterval` for times in `loc`. -/
def Schedule.currentIntervalIn (loc : Location) (schedule : Schedule) (timestamp : Time) :
    Lookup :=
  if timestamp.After schedule.endOfDay then Lookup.outOfRange
  else
    match findTargetTimesIn loc timestamp (candidatesIn loc schedule timestamp) with
    | none => Lookup.fatal
    | some interval => Lookup.ok (fixDummyValues interval)

/-- The zone periods of `America/Sao_Paulo` around the start of daylight saving
time on 2018-11-04: offset `-03:00` from 2018-02-18 02:00 UTC until
2018-11-04 03:00 UTC (local midnight), then `-02:00` until 2019-02-17 02:00
UTC.  Local times from `00:00:00` to `00:59:59` of 2018-11-04 do not exist. -/
def saoPaulo : Location where
  lookup := fun sec =>
    if sec < (Date 2018 11 4 3 0 0 0).ns / nsPerSecond then
      ⟨-10800, (Date 2018 2 18 2 0 0 0).ns / nsPerSecond,
        (Date 2018 11 4 3 0 0 0).ns / nsPerSecond⟩
    else
      ⟨-7200, (Date 2018 11 4 3 0 0 0).ns / nsPerSecond,
        (Date 2019 2 17 2 0 0 0).ns / nsPerSecond⟩

/-- An instant by its wall-clock reading on 2018-11-04 in `saoPaulo`. -/
def atSaoPaulo (hour min sec nsec : Int) : Time := DateIn saoPaulo 2018 11 4 hour min sec nsec

/-- Waypoints `07:00 -> (2700, 40)` and `22:00 -> (4000, 100)` of 2018-11-04 in
`saoPaulo`, end of day `23:59:59`. -/
def saoPauloSchedule : Schedule where
  endOfDay := atSaoPaulo 23 59 59 0
  sunrise := ⟨atSaoPaulo 6 30 0 0, 2700, 40⟩
  sunset := ⟨atSaoPaulo 18 30 0 0, 4000, 100⟩
  enableWhenLightsAppear := false
  targetTimes := [⟨atSaoPaulo 7 0 0 0, 2700, 40⟩, ⟨atSaoPaulo 22 0 0 0, 4000, 100⟩]

/-- Length of a year in days. -/
def yearLen (y : Int) : Int := if isLeap y then 366 else 365

/-- Two instants lie on the same calendar day (year, month and day). -/
def sameDay (t u : Time) : Prop := t.Date = u.Date

instance (t u : Time) : Decidable (sameDay t u) := by
  unfold sameDay
  infer_instance

/-- A waypoint carries the placeholder values `(-1, -1)`. -/
def TimeStamp.isDummy (ts : TimeStamp) : Bool :=
  ts.ColorTemperature == -1 && ts.Brightness == -1

/-! ## `configuration_migration.go`

Go strings are byte strings; the model reads a string as its list of
characters.  The parsers below only ever accept ASCII digits, `:`, `A`, `P`
and `M`, and a character outside ASCII is a run of bytes above `0x7f`, so
acceptance and results agree with the byte-wise reading. -/

/-- Go `isDigit(s, i)` of package `time`. -/
def isDigit (s : List Char) (i : Nat) : Bool :=
  match s.get? i with
  | none => false
  | some c => decide ('0' ≤ c) && decide (c ≤ '9')

/-- Numeric value `c - '0'` of a digit. -/
def digitVal (c : Char) : Int := (c.toNat : Int) - 48

/-- Go `getnum(s, fixed)`: a leading one- or two-digit number (exactly two
digits when `fixed`), and the rest of the string. -/
def getnum (s : List Char) (fixed : Bool) : Option (Int × List Char) :=
  if !isDigit s 0 then none
  else if !isDigit s 1 then
    if fixed then none else some (digitVal (s.getD 0 '0'), s.drop 1)
  else some (digitVal (s.getD 0 '0') * 10 + digitVal (s.getD 1 '0'), s.drop 2)

/-- Go `skip(value, pre)` for a layout text `pre` without spaces: `value`
must start with `pre`, which is removed. -/
def skip : List Char → List Char → Option (List Char)
  | value, [] => some value
  | [], _ :: _ => none
  | v :: value, p :: pre => if v != p then none else skip value pre

/-- Go `time.Parse("3:04PM", value)`: the layout splits into the chunks
`stdHour12`, `":"` + `stdZeroMinute`, `stdPM`; `none` stands for a non-nil
error. -/
def parseOld (value : List Char) : Option Time :=
  match getnum value false with
  | none => none
  | some (hour, value) =>
    if hour < 0 || 12 < hour then none
    else
      match skip value [':'] with
      | none => none
      | some value =>
        match getnum value true with
        | none => none
        | some (min, value) =>
          if min < 0 || 60 ≤ min then none
          else if value.length < 2 then none
          else
            let p := value.take 2
            let value := value.drop 2
            if p != ['P', 'M'] && p != ['A', 'M'] then none
            else if value.length != 0 then none
            else
              let pmSet := p == ['P', 'M']
              let amSet := p == ['A', 'M']
              let hour :=
                if pmSet && decide (hour < 12) then hour + 12
                else if amSet && hour == 12 then 0
                else hour
              some (Date 0 1 1 hour min 0 0)

/-- Go `time.Parse("15:04", value)`: chunks `stdHour`, `":"` + `stdZeroMinute`;
`none` stands for a non-nil error. -/
def parseNew (value : List Char) : Option Time :=
  match getnum value false with
  | none => none
  | some (hour, value) =>
    if hour < 0 || 24 ≤ hour then none
    else
      match skip value [':'] with
      | none => none
      | some value =>
        match getnum value true with
        | none => none
        | some (min, value) =>
          if min < 0 || 60 ≤ min then none
          else if value.length != 0 then none
          else some (Date 0 1 1 hour min 0 0)

/-- Go `appendInt(b, x, 2)` for `0 ≤ x < 100`: two decimal digits. -/
def twoDigits (x : Int) : List Char :=
  [Char.ofNat (48 + (x / 10).toNat), Char.ofNat (48 + (x % 10).toNat)]

/-- Go `t.Format("15:04")`. -/
def formatNew (t : Time) : List Char :=
  twoDigits t.Clock.1 ++ [':'] ++ twoDigits t.Clock.2.1

/-- Go `migrateTimestampFormat`: the returned string and the error, if any. -/
def migrateTimestampFormat (timestamp : String) : String × Option String :=
  match parseOld timestamp.data with
  | some t => (String.mk (formatNew t), none)
  | none =>
    match parseNew timestamp.data with
    | some _ => (timestamp, none)
    | none => ("", some ("Invalid timestamp format: " ++ timestamp))

/-! ## `kelvin.go`: the fast tick

`Light`, `LightState` and the methods `updateCurrentLightState` and `update`
are declared outside the three source files; they are parameters here.  The
lights of the list are distinct objects, so a method call on one light
changes that light only. -/

/-- The light controller operations used by the fast tick. -/
structure LightOps (Light LightState : Type) where
  ID : Light → Int
  updateCurrentLightState : Light → LightState → Light
  update : Light → Light

/-- What the fast tick does, in order. -/
inductive Event (LightState : Type) where
  /-- `log.Warning(err)` after `bridge.LightStates()` -/
  | bridgeWarning (err : String)
  /-- `light.updateCurrentLightState(currentLightState)` -/
  | updateCurrentLightState (id : Int) (reading : LightState)
  /-- `light.update()` -/
  | update (id : Int)
  /-- `log.Warningf("No current light state found for light %d", light.ID)` -/
  | noState (id : Int)
deriving DecidableEq, Repr

/-- Body of the `for _, light := range lights` loop of the fast tick: the
state is the lights handled so far and the events so far. -/
def fastTickStep {Light LightState : Type} (ops : LightOps Light LightState)
    (states : Int → Option LightState) (acc : List Light × List (Event LightState))
    (light : Light) : List Light × List (Event LightState) :=
  match states (ops.ID light) with
  | some currentLightState =>
    (acc.1 ++ [ops.update (ops.updateCurrentLightState light currentLightState)],
      acc.2 ++ [Event.updateCurrentLightState (ops.ID light) currentLightState,
        Event.update (ops.ID light)])
  | none => (acc.1 ++ [light], acc.2 ++ [Event.noState (ops.ID light)])

/-- The `case <-lightUpdateTick` branch of `main`: `states` and `err` are what
`bridge.LightStates()` returned; the result is the lights after the tick and
the events of the tick. -/
def fastTick {Light LightState : Type} (ops : LightOps Light LightState)
    (lights : List Light) (states : Int → Option LightState) (err : Option String) :
    List Light × List (Event LightState) :=
  let log := match err with
    | some e => [Event.bridgeWarning e]
    | none => []
  lights.foldl (fastTickStep ops states) ([], log)

/-! ## Calendar lemmas -/

theorem isLeap_iff (y : Int) :
    isLeap y = true ↔ (y % 4 = 0 ∧ (y % 100 ≠ 0 ∨ y % 400 = 0)) := by
  simp [isLeap]

theorem absYear_arith (d n400 c n4 k : Int) (h400 : n400 = d / 146097)
    (hc : c = (d - 146097 * n400) / 36524)
    (hn4 : n4 = (d - 146097 * n400 - 36524 * (c - c / 4)) / 1461)
    (hk : k = (d - 146097 * n400 - 36524 * (c - c / 4) - 1461 * n4) / 365)
    (y yd : Int) (hy : y = 400 * n400 + 100 * (c - c / 4) + 4 * n4 + (k - k / 4) + 1)
    (hyd : yd = d - 146097 * n400 - 36524 * (c - c / 4) - 1461 * n4 - 365 * (k - k / 4)) :
    0 ≤ yd ∧ (yd < 365 ∨ (yd = 365 ∧ (y % 4 = 0 ∧ (y % 100 ≠ 0 ∨ y % 400 = 0)))) ∧
      daysSinceEpoch y + yd = d := by
  have hc5 : c = 0 ∨ c = 1 ∨ c = 2 ∨ c = 3 ∨ c = 4 := by omega
  have hk5 : k = 0 ∨ k = 1 ∨ k = 2 ∨ k = 3 ∨ k = 4 := by omega
  simp only [daysSinceEpoch]
  rcases hc5 with h | h | h | h | h <;> rcases hk5 with h' | h' | h' | h' | h' <;>
    subst h <;> subst h' <;> refine ⟨by omega, by omega, by omega⟩

/-- The year part of `absDate` inverts `daysSinceEpoch`. -/
theorem absYear_spec (d : Int) :
    0 ≤ (absYear d).2 ∧ (absYear d).2 < yearLen (absYear d).1 ∧
      daysSinceEpoch (absYear d).1 + (absYear d).2 = d := by
  obtain ⟨h0, h1, h2⟩ :=
    absYear_arith d _ _ _ _ rfl rfl rfl rfl (absYear d).1 (absYear d).2 rfl rfl
  refine ⟨h0, ?_, h2⟩
  unfold yearLen
  rcases h1 with h1 | ⟨h1, h3⟩
  · split_ifs <;> omega
  · rw [if_pos ((isLeap_iff _).2 h3)]; omega

theorem daysSinceEpoch_succ (y : Int) :
    daysSinceEpoch (y + 1) = daysSinceEpoch y + yearLen y := by
  unfold yearLen
  by_cases h : isLeap y = true
  · rw [if_pos h]; rw [isLeap_iff] at h; simp only [daysSinceEpoch]; omega
  · rw [if_neg h]; rw [isLeap_iff] at h; simp only [daysSinceEpoch]; omega

theorem yearLen_ge (y : Int) : 365 ≤ yearLen y := by
  unfold yearLen; split_ifs <;> omega

theorem yearLen_le (y : Int) : yearLen y ≤ 366 := by
  unfold yearLen; split_ifs <;> omega

theorem daysSinceEpoch_mono : Monotone daysSinceEpoch := by
  apply monotone_int_of_le_succ
  intro n
  have := daysSinceEpoch_succ n
  have := yearLen_ge n
  omega

/-- A day number lies in exactly one year. -/
theorem year_unique (z y y' : Int)
    (h1 : daysSinceEpoch y ≤ z) (h2 : z < daysSinceEpoch y + yearLen y)
    (h3 : daysSinceEpoch y' ≤ z) (h4 : z < daysSinceEpoch y' + yearLen y') : y = y' := by
  rw [← daysSinceEpoch_succ] at h2 h4
  rcases lt_trichotomy y y' with h | h | h
  · have := daysSinceEpoch_mono (show y + 1 ≤ y' by omega); omega
  · exact h
  · have := daysSinceEpoch_mono (show y' + 1 ≤ y by omega); omega

theorem absYear_eq (z y yd : Int) (h0 : 0 ≤ yd) (h1 : yd < yearLen y)
    (h2 : daysSinceEpoch y + yd = z) : absYear z = (y, yd) := by
  obtain ⟨a, b, c⟩ := absYear_spec z
  have hy : (absYear z).1 = y := year_unique z _ _ (by omega) (by omega) (by omega) (by omega)
  have : (absYear z).2 = yd := by rw [hy] at c; omega
  exact Prod.ext hy this

set_option maxRecDepth 100000 in
theorem monthDay_table : ∀ leap : Bool, ∀ n : Nat, n < 366 →
    ((n : Int) < (if leap then 366 else 365) →
      (1 ≤ (monthDay leap n).1 ∧ (monthDay leap n).1 ≤ 12 ∧ 1 ≤ (monthDay leap n).2 ∧
        daysBeforeAt ((monthDay leap n).1 - 1) +
          (if leap && decide (3 ≤ (monthDay leap n).1) then 1 else 0) +
          ((monthDay leap n).2 - 1) = n)) := by
  decide

set_option maxRecDepth 100000 in
theorem monthDay_step_table : ∀ leap : Bool, ∀ n : Nat, n < 366 → ∀ k : Nat, k < 3 →
    (k ≠ 0 → (n : Int) + (k : Int) < (if leap then 366 else 365) →
      (monthDay leap ((n : Int) + (k : Int))).2 ≠ (monthDay leap n).2) := by
  decide

theorem monthDay_first_table : ∀ leap : Bool, ∀ n : Nat, n < 2 →
    (monthDay leap n).2 = (n : Int) + 1 := by
  decide

set_option maxRecDepth 100000 in
theorem monthDay_last_table : ∀ leap : Bool, ∀ n : Nat, n < 366 →
    ((if leap then 364 else 363) ≤ (n : Int) → (n : Int) < (if leap then 366 else 365) →
      30 ≤ (monthDay leap n).2) := by
  decide

/-- The month part of `absDate` inverts the `daysBefore` table. -/
theorem monthDay_spec (y yd : Int) (h0 : 0 ≤ yd) (h1 : yd < yearLen y) :
    1 ≤ (monthDay (isLeap y) yd).1 ∧ (monthDay (isLeap y) yd).1 ≤ 12 ∧
      1 ≤ (monthDay (isLeap y) yd).2 ∧
      daysBeforeAt ((monthDay (isLeap y) yd).1 - 1) +
        (if isLeap y && decide (3 ≤ (monthDay (isLeap y) yd).1) then 1 else 0) +
        ((monthDay (isLeap y) yd).2 - 1) = yd := by
  obtain ⟨n, rfl⟩ := Int.eq_ofNat_of_zero_le h0
  have hl := yearLen_le y
  have hn : n < 366 := by omega
  unfold yearLen at h1
  exact monthDay_table (isLeap y) n hn (by simpa using h1)

/-- Days one or two apart never share their day of the month. -/
theorem absDate_day_ne (z k : Int) (hk : k = 1 ∨ k = 2) :
    (absDate (z + k)).2.2 ≠ (absDate z).2.2 := by
  obtain ⟨h0, h1, h2⟩ := absYear_spec z
  obtain ⟨n, hn⟩ := Int.eq_ofNat_of_zero_le h0
  obtain ⟨j, hj, hj3, hj0⟩ : ∃ j : Nat, k = (j : Int) ∧ j < 3 ∧ j ≠ 0 := by
    rcases hk with h | h
    · exact ⟨1, by simpa using h, by decide, by decide⟩
    · exact ⟨2, by simpa using h, by decide, by decide⟩
  have hl := yearLen_le (absYear z).1
  have hg := yearLen_ge (absYear z).1
  have hn366 : n < 366 := by omega
  by_cases hlt : (absYear z).2 + k < yearLen (absYear z).1
  · have e := absYear_eq (z + k) (absYear z).1 ((absYear z).2 + k) (by omega) hlt (by omega)
    simp only [absDate, e]
    rw [hn, hj]
    apply monthDay_step_table _ n hn366 j hj3 hj0
    rw [hn, hj] at hlt
    unfold yearLen at hlt
    simpa using hlt
  · have hg2 := yearLen_ge ((absYear z).1 + 1)
    have e := absYear_eq (z + k) ((absYear z).1 + 1)
      ((absYear z).2 + k - yearLen (absYear z).1) (by omega) (by omega)
      (by rw [daysSinceEpoch_succ]; omega)
    simp only [absDate, e]
    rw [hn, hj]
    have hlast := monthDay_last_table (isLeap (absYear z).1) n hn366
      (by rw [hn, hj] at hlt; unfold yearLen at hlt; split_ifs at hlt ⊢ <;> omega)
      (by rw [hn] at h1; unfold yearLen at h1; simpa using h1)
    obtain ⟨m, hm, hm2⟩ : ∃ m : Nat, (n : Int) + (j : Int) - yearLen (absYear z).1 = (m : Int) ∧
        m < 2 := by
      rw [hn] at h1
      rw [hn, hj] at hlt
      exact ⟨((n : Int) + (j : Int) - yearLen (absYear z).1).toNat, by omega, by omega⟩
    rw [hm, monthDay_first_table _ m hm2]
    omega

/-! ## Lemmas on `time.Date`, `AddDate` and the day boundaries -/

/-- The instant built by `time.Date` from the date of day `z`, shifted by `k` days,
with an in-range clock reading. -/
theorem Date_absDate (z k h mi s n : Int) (hh : 0 ≤ h ∧ h < 24) (hmi : 0 ≤ mi ∧ mi < 60)
    (hs : 0 ≤ s ∧ s < 60) (hn : 0 ≤ n ∧ n < 1000000000) :
    (Date (absDate z).1 (absDate z).2.1 ((absDate z).2.2 + k) h mi s n).ns =
      ((z + k) * 86400 + (h * 3600 + mi * 60 + s)) * 1000000000 + n := by
  obtain ⟨h0, h1, h2⟩ := absYear_spec z
  obtain ⟨m1, m12, _, m4⟩ := monthDay_spec (absYear z).1 (absYear z).2 h0 h1
  simp only [absDate]
  generalize (monthDay (isLeap (absYear z).1) (absYear z).2).1 = m at m1 m12 m4
  generalize (monthDay (isLeap (absYear z).1) (absYear z).2).2 = d at m4
  generalize (absYear z).1 = y at h2 m4
  generalize (absYear z).2 = yd at h2 m4
  have e1 : (m - 1) / 12 = 0 := by omega
  have e2 : (m - 1) % 12 + 1 = m := by omega
  have e3 : n / 1000000000 = 0 := by omega
  have e4 : n % 1000000000 = n := by omega
  have e5 : s / 60 = 0 := by omega
  have e6 : s % 60 = s := by omega
  have e7 : mi / 60 = 0 := by omega
  have e8 : mi % 60 = mi := by omega
  have e9 : h / 24 = 0 := by omega
  have e10 : h % 24 = h := by omega
  simp only [Date, norm, nsPerSecond, secondsPerDay, secondsPerHour, secondsPerMinute, e1, e2, e3,
    e4, e5, e6, e7, e8, e9, e10, add_zero]
  split_ifs at m4 ⊢ <;> rw [← h2, ← m4] <;> ring

theorem Clock_range (t : Time) :
    (0 ≤ t.Clock.1 ∧ t.Clock.1 < 24) ∧ (0 ≤ t.Clock.2.1 ∧ t.Clock.2.1 < 60) ∧
      (0 ≤ t.Clock.2.2 ∧ t.Clock.2.2 < 60) ∧ (0 ≤ t.Nanosecond ∧ t.Nanosecond < 1000000000) := by
  simp only [Time.Clock, Time.Nanosecond, nsPerSecond, secondsPerDay, secondsPerHour,
    secondsPerMinute]
  omega

/-- `AddDate(0, 0, k)` moves an instant by `k` whole days. -/
theorem AddDate_days (t : Time) (k : Int) : (t.AddDate 0 0 k).ns = t.ns + k * nsPerDay := by
  obtain ⟨c1, c2, c3, c4⟩ := Clock_range t
  simp only [Time.AddDate, Time.Date, add_zero]
  rw [Date_absDate _ _ _ _ _ _ c1 c2 c3 c4]
  simp only [Time.Clock, Time.Nanosecond, Time.absDay, nsPerSecond, secondsPerDay, secondsPerHour,
    secondsPerMinute, nsPerDay]
  omega

theorem startOfDay_ns (t : Time) : (startOfDay t).Time.ns = t.absDay * nsPerDay := by
  have := Date_absDate t.absDay 0 0 0 0 0 (by omega) (by omega) (by omega) (by omega)
  simp only [add_zero] at this
  simp only [startOfDay, Time.Date, this, nsPerDay]
  omega

theorem endOfDay_ns (t : Time) :
    (endOfDay t).Time.ns = t.absDay * nsPerDay + 86399000000000 := by
  have := Date_absDate t.absDay 0 23 59 59 0 (by omega) (by omega) (by omega) (by omega)
  simp only [add_zero] at this
  simp only [endOfDay, Time.Date, this, nsPerDay]
  omega

/-- An instant between the start and the end of a day has that day's number. -/
theorem absDay_eq_of_between (t u : Time) (h1 : t.absDay * nsPerDay ≤ u.ns)
    (h2 : u.ns < t.absDay * nsPerDay + nsPerDay) : u.absDay = t.absDay := by
  simp only [Time.absDay, nsPerDay] at *
  omega

/-- Within two days of each other, equal days of the month mean equal day numbers. -/
theorem absDay_eq_of_Day_eq (t u : Time) (h1 : t.ns - 2 * nsPerDay ≤ u.ns)
    (h2 : u.ns ≤ t.ns + 2 * nsPerDay) (hd : u.Day = t.Day) : u.absDay = t.absDay := by
  have hr : t.absDay - 2 ≤ u.absDay ∧ u.absDay ≤ t.absDay + 2 := by
    simp only [Time.absDay, nsPerDay] at *
    omega
  simp only [Time.Day, Time.Date] at hd
  by_contra hne
  have hk : u.absDay = t.absDay + 1 ∨ u.absDay = t.absDay + 2 ∨ t.absDay = u.absDay + 1 ∨
      t.absDay = u.absDay + 2 := by omega
  rcases hk with h | h | h | h
  · exact absDate_day_ne t.absDay 1 (Or.inl rfl) (by rw [← h]; exact hd)
  · exact absDate_day_ne t.absDay 2 (Or.inr rfl) (by rw [← h]; exact hd)
  · exact absDate_day_ne u.absDay 1 (Or.inl rfl) (by rw [← h]; exact hd.symm)
  · exact absDate_day_ne u.absDay 2 (Or.inr rfl) (by rw [← h]; exact hd.symm)

/-- The initial bounds of `findTargetTimes` are never on the day of the month of the
timestamp. -/
theorem initialBounds_Day (t : Time) :
    (initialBounds t).1.Time.Day ≠ t.Day ∧ (initialBounds t).2.Time.Day ≠ t.Day := by
  have hb : ((initialBounds t).1.Time).absDay = t.absDay - 2 := by
    simp only [initialBounds, Time.absDay, AddDate_days, nsPerDay]; omega
  have ha : ((initialBounds t).2.Time).absDay = t.absDay + 2 := by
    simp only [initialBounds, Time.absDay, AddDate_days, nsPerDay]; omega
  constructor
  · intro h
    simp only [Time.Day, Time.Date, hb] at h
    have := absDate_day_ne (t.absDay - 2) 2 (Or.inr rfl)
    rw [show t.absDay - 2 + 2 = t.absDay by omega] at this
    exact this h.symm
  · intro h
    simp only [Time.Day, Time.Date, ha] at h
    exact absDate_day_ne t.absDay 2 (Or.inr rfl) h

/-! ## The scan of `findTargetTimes` -/

theorem scanStep_cases (t : Time) (acc : TimeStamp × TimeStamp) (c : TimeStamp) :
    (c.Time.ns < t.ns ∧ acc.1.Time.ns < c.Time.ns ∧ scanStep t acc c = (c, acc.2)) ∨
    (¬(c.Time.ns < t.ns ∧ acc.1.Time.ns < c.Time.ns) ∧ t.ns < c.Time.ns ∧
      c.Time.ns < acc.2.Time.ns ∧ scanStep t acc c = (acc.1, c)) ∨
    (¬(c.Time.ns < t.ns ∧ acc.1.Time.ns < c.Time.ns) ∧
      ¬(t.ns < c.Time.ns ∧ c.Time.ns < acc.2.Time.ns) ∧ scanStep t acc c = acc) := by
  unfold scanStep
  by_cases h1 : c.Time.ns < t.ns ∧ acc.1.Time.ns < c.Time.ns
  · left
    exact ⟨h1.1, h1.2, by simp [Time.Before, Time.After, h1.1, h1.2]⟩
  · right
    by_cases h2 : t.ns < c.Time.ns ∧ c.Time.ns < acc.2.Time.ns
    · left
      refine ⟨h1, h2.1, h2.2, ?_⟩
      have : ¬ c.Time.ns < t.ns := by omega
      simp [Time.Before, Time.After, h2.1, h2.2, this]
    · right
      refine ⟨h1, h2, ?_⟩
      rw [if_neg, if_neg]
      · simpa [Time.Before, Time.After] using h2
      · simpa [Time.Before, Time.After] using h1

/-- Invariant of the loop of `findTargetTimes`, for any starting bounds: each
selected bound is the starting one or a candidate on its side of the
timestamp and inside the starting bound, and no candidate lies strictly
between a selected bound and the timestamp. -/
theorem foldl_scanStep (t : Time) (cs : List TimeStamp) (init : TimeStamp × TimeStamp) :
    (((cs.foldl (scanStep t) init).1 = init.1 ∨
        ((cs.foldl (scanStep t) init).1 ∈ cs ∧ (cs.foldl (scanStep t) init).1.Time.ns < t.ns ∧
          init.1.Time.ns < (cs.foldl (scanStep t) init).1.Time.ns)) ∧
      init.1.Time.ns ≤ (cs.foldl (scanStep t) init).1.Time.ns ∧
      (∀ c ∈ cs, c.Time.ns < t.ns → c.Time.ns ≤ (cs.foldl (scanStep t) init).1.Time.ns)) ∧
    (((cs.foldl (scanStep t) init).2 = init.2 ∨
        ((cs.foldl (scanStep t) init).2 ∈ cs ∧ t.ns < (cs.foldl (scanStep t) init).2.Time.ns ∧
          (cs.foldl (scanStep t) init).2.Time.ns < init.2.Time.ns)) ∧
      (cs.foldl (scanStep t) init).2.Time.ns ≤ init.2.Time.ns ∧
      (∀ c ∈ cs, t.ns < c.Time.ns → (cs.foldl (scanStep t) init).2.Time.ns ≤ c.Time.ns)) := by
  induction cs generalizing init with
  | nil => simp
  | cons c cs ih =>
    simp only [List.foldl_cons]
    obtain ⟨⟨b1, b2, b3⟩, ⟨a1, a2, a3⟩⟩ := ih (scanStep t init c)
    rcases scanStep_cases t init c with ⟨h1, h2, e⟩ | ⟨h1, h2, h3, e⟩ | ⟨h1, h2, e⟩
    · rw [e] at b1 b2 b3 a1 a2 a3 ⊢
      simp only at b1 b2 b3 a1 a2 a3
      refine ⟨⟨?_, by omega, ?_⟩, ⟨?_, a2, ?_⟩⟩
      · right
        rcases b1 with b1 | ⟨b1, b1', b1''⟩
        · rw [b1]; exact ⟨List.mem_cons_self _ _, h1, h2⟩
        · exact ⟨List.mem_cons_of_mem _ b1, b1', by omega⟩
      · intro x hx hxt
        rcases List.mem_cons.1 hx with rfl | hx
        · exact b2
        · exact b3 x hx hxt
      · rcases a1 with a1 | ⟨a1, a1', a1''⟩
        · exact Or.inl a1
        · exact Or.inr ⟨List.mem_cons_of_mem _ a1, a1', a1''⟩
      · intro x hx hxt
        rcases List.mem_cons.1 hx with rfl | hx
        · omega
        · exact a3 x hx hxt
    · rw [e] at b1 b2 b3 a1 a2 a3 ⊢
      simp only at b1 b2 b3 a1 a2 a3
      refine ⟨⟨?_, b2, ?_⟩, ⟨?_, by omega, ?_⟩⟩
      · rcases b1 with b1 | ⟨b1, b1', b1''⟩
        · exact Or.inl b1
        · exact Or.inr ⟨List.mem_cons_of_mem _ b1, b1', b1''⟩
      · intro x hx hxt
        rcases List.mem_cons.1 hx with rfl | hx
        · omega
        · exact b3 x hx hxt
      · right
        rcases a1 with a1 | ⟨a1, a1', a1''⟩
        · rw [a1]; exact ⟨List.mem_cons_self _ _, h2, h3⟩
        · exact ⟨List.mem_cons_of_mem _ a1, a1', by omega⟩
      · intro x hx hxt
        rcases List.mem_cons.1 hx with rfl | hx
        · exact a2
        · exact a3 x hx hxt
    · rw [e] at b1 b2 b3 a1 a2 a3 ⊢
      refine ⟨⟨?_, b2, ?_⟩, ⟨?_, a2, ?_⟩⟩
      · rcases b1 with b1 | ⟨b1, b1', b1''⟩
        · exact Or.inl b1
        · exact Or.inr ⟨List.mem_cons_of_mem _ b1, b1', b1''⟩
      · intro x hx hxt
        rcases List.mem_cons.1 hx with rfl | hx
        · omega
        · exact b3 x hx hxt
      · rcases a1 with a1 | ⟨a1, a1', a1''⟩
        · exact Or.inl a1
        · exact Or.inr ⟨List.mem_cons_of_mem _ a1, a1', a1''⟩
      · intro x hx hxt
        rcases List.mem_cons.1 hx with rfl | hx
        · omega
        · exact a3 x hx hxt

theorem initialBounds_ns (t : Time) :
    (initialBounds t).1.Time.ns = t.ns - 2 * nsPerDay ∧
      (initialBounds t).2.Time.ns = t.ns + 2 * nsPerDay := by
  constructor
  · show ((t.AddDate 0 0 (-2))).ns = _
    rw [AddDate_days]; omega
  · show ((t.AddDate 0 0 2)).ns = _
    rw [AddDate_days]

/-- What the loop of `findTargetTimes` selects. -/
theorem scan_spec (t : Time) (cs : List TimeStamp) :
    (((scan t cs).1 = (initialBounds t).1 ∨
        ((scan t cs).1 ∈ cs ∧ (scan t cs).1.Time.ns < t.ns ∧
          t.ns - 2 * nsPerDay < (scan t cs).1.Time.ns)) ∧
      t.ns - 2 * nsPerDay ≤ (scan t cs).1.Time.ns ∧ (scan t cs).1.Time.ns < t.ns ∧
      (∀ c ∈ cs, c.Time.ns < t.ns → c.Time.ns ≤ (scan t cs).1.Time.ns)) ∧
    (((scan t cs).2 = (initialBounds t).2 ∨
        ((scan t cs).2 ∈ cs ∧ t.ns < (scan t cs).2.Time.ns ∧
          (scan t cs).2.Time.ns < t.ns + 2 * nsPerDay)) ∧
      (scan t cs).2.Time.ns ≤ t.ns + 2 * nsPerDay ∧ t.ns < (scan t cs).2.Time.ns ∧
      (∀ c ∈ cs, t.ns < c.Time.ns → (scan t cs).2.Time.ns ≤ c.Time.ns)) := by
  obtain ⟨⟨b1, b2, b3⟩, ⟨a1, a2, a3⟩⟩ := foldl_scanStep t cs (initialBounds t)
  obtain ⟨i1, i2⟩ := initialBounds_ns t
  have hpos : (0 : Int) < nsPerDay := by decide
  rw [i1] at b1 b2
  rw [i2] at a1 a2
  refine ⟨⟨b1, b2, ?_, b3⟩, ⟨a1, a2, ?_, a3⟩⟩
  · rcases b1 with b1 | b1
    · show (List.foldl (scanStep t) (initialBounds t) cs).1.Time.ns < t.ns
      rw [b1, i1]; omega
    · exact b1.2.1
  · rcases a1 with a1 | a1
    · show t.ns < (List.foldl (scanStep t) (initialBounds t) cs).2.Time.ns
      rw [a1, i2]; omega
    · exact a1.2.1

/-! ## `currentInterval` and `findTargetTimes` -/

theorem fixDummyValues_Time (iv : Interval) :
    (fixDummyValues iv).Start.Time = iv.Start.Time ∧
      (fixDummyValues iv).End.Time = iv.End.Time := by
  simp only [fixDummyValues]
  constructor <;> split_ifs <;> rfl

theorem findTargetTimes_eq_some (t : Time) (cs : List TimeStamp) (iv : Interval)
    (h : findTargetTimes t cs = some iv) :
    iv = ⟨(scan t cs).1, (scan t cs).2⟩ ∧ (scan t cs).1.Time.Day = t.Day ∧
      (scan t cs).2.Time.Day = t.Day := by
  unfold findTargetTimes at h
  simp only at h
  split_ifs at h with hc
  simp only [Bool.or_eq_true, bne_iff_ne, ne_eq, not_or, not_not] at hc
  exact ⟨(Option.some.inj h).symm, hc.1, hc.2⟩

theorem findTargetTimes_of_Day (t : Time) (cs : List TimeStamp)
    (h1 : (scan t cs).1.Time.Day = t.Day) (h2 : (scan t cs).2.Time.Day = t.Day) :
    findTargetTimes t cs = some ⟨(scan t cs).1, (scan t cs).2⟩ := by
  unfold findTargetTimes
  simp [h1, h2]

theorem currentInterval_eq_ok (s : Schedule) (t : Time) (r : Interval)
    (h : s.currentInterval t = Lookup.ok r) :
    t.After s.endOfDay = false ∧
      ∃ iv, findTargetTimes t (candidates s t) = some iv ∧ r = fixDummyValues iv := by
  unfold Schedule.currentInterval at h
  split_ifs at h with hc
  refine ⟨by simpa using hc, ?_⟩
  cases hf : findTargetTimes t (candidates s t) with
  | none => rw [hf] at h; cases h
  | some iv =>
    rw [hf] at h
    exact ⟨iv, rfl, (Lookup.ok.inj h).symm⟩

/-! ## The location-aware functions at `Location.UTC` -/

theorem absIn_UTC (t : Time) : t.absIn Location.UTC = t.ns / nsPerSecond := by
  simp [Time.absIn, Location.UTC]

theorem readDateIn_UTC (t : Time) : t.DateIn Location.UTC = t.Date := by
  have h : t.ns / nsPerSecond / secondsPerDay = t.ns / nsPerDay := by
    simp only [nsPerSecond, secondsPerDay, nsPerDay]
    omega
  simp only [Time.DateIn, absIn_UTC, Time.Date, Time.absDay, h]

theorem DayIn_UTC (t : Time) : t.DayIn Location.UTC = t.Day := by
  simp only [Time.DayIn, readDateIn_UTC, Time.Day]

theorem ClockIn_UTC (t : Time) : t.ClockIn Location.UTC = t.Clock := by
  simp only [Time.ClockIn, absIn_UTC, Time.Clock]

theorem DateIn_UTC (year month day hour min sec nsec : Int) :
    DateIn Location.UTC year month day hour min sec nsec =
      Date year month day hour min sec nsec := by
  have h : ∀ w : Time, (⟨w.ns / nsPerSecond * nsPerSecond + w.ns % nsPerSecond⟩ : Time) = w := by
    intro w
    cases w with
    | mk n =>
      simp only [nsPerSecond, Time.mk.injEq]
      omega
  simp only [DateIn, Location.UTC, bne_self_eq_false, Bool.false_eq_true, if_false]
  exact h _

theorem AddDateIn_UTC (t : Time) (years months days : Int) :
    t.AddDateIn Location.UTC years months days = t.AddDate years months days := by
  simp only [Time.AddDateIn, readDateIn_UTC, ClockIn_UTC, DateIn_UTC, Time.AddDate]

theorem scanIn_UTC (t : Time) (cs : List TimeStamp) : scanIn Location.UTC t cs = scan t cs := by
  simp only [scanIn, initialBoundsIn, AddDateIn_UTC, scan, initialBounds]

theorem findTargetTimesIn_UTC (t : Time) (cs : List TimeStamp) :
    findTargetTimesIn Location.UTC t cs = findTargetTimes t cs := by
  simp only [findTargetTimesIn, scanIn_UTC, DayIn_UTC, findTargetTimes]

theorem candidatesIn_UTC (s : Schedule) (t : Time) :
    candidatesIn Location.UTC s t = candidates s t := by
  simp only [candidatesIn, startOfDayIn, endOfDayIn, readDateIn_UTC, DateIn_UTC, candidates,
    startOfDay, endOfDay]

/-- In the location with offset zero the location-aware lookup is the lookup the
results on `currentInterval` are stated for. -/
theorem currentIntervalIn_UTC (s : Schedule) (t : Time) :
    s.currentIntervalIn Location.UTC t = s.currentInterval t := by
  simp only [Schedule.currentIntervalIn, findTargetTimesIn_UTC, candidatesIn_UTC,
    Schedule.currentInterval]

/-! ## Claims on `schedule.go` -/

/-- C1: `currentInterval` reports the out-of-range error exactly when the
timestamp is strictly after the schedule's `endOfDay`, and then it yields no
interval; a timestamp equal to `endOfDay` is not out of range, and with
`endOfDay = 23:59:59` the instant `23:59:59.001` is. -/
theorem currentInterval_outOfRange_iff (s : Schedule) (t : Time) :
    (s.currentInterval t = Lookup.outOfRange ↔ s.endOfDay.ns < t.ns) ∧
      (s.endOfDay.ns < t.ns → ∀ iv, s.currentInterval t ≠ Lookup.ok iv) ∧
      s.currentInterval s.endOfDay ≠ Lookup.outOfRange ∧
      exampleSchedule.currentInterval (at15 23 59 59 1000000) = Lookup.outOfRange := by
  have key : ∀ (s : Schedule) (t : Time),
      s.currentInterval t = Lookup.outOfRange ↔ s.endOfDay.ns < t.ns := by
    intro s t
    unfold Schedule.currentInterval
    by_cases h : s.endOfDay.ns < t.ns
    · simp [Time.After, h]
    · simp only [Time.After, h, decide_False, Bool.false_eq_true, if_false, iff_false]
      cases findTargetTimes t (candidates s t) <;> simp
  refine ⟨key s t, ?_, ?_, by decide⟩
  · intro h iv hiv
    rw [(key s t).2 h] at hiv
    cases hiv
  · intro h
    have := (key s s.endOfDay).1 h
    omega

/-- C2, failing input: on 2018-11-04 in `America/Sao_Paulo` local midnight is
skipped by the start of daylight saving time. The timestamp `06:00:00` of that
day is not after `endOfDay`, lies strictly between the two boundaries that
`currentInterval` builds for `00:00:00` and `23:59:59` of its day, and the
waypoints `07:00` and `22:00` are on its day; but `time.Date` puts the
start-of-day boundary at `23:00:00` of 2018-11-03, that boundary becomes the
before-bound, and the lookup takes the `log.Fatal` branch. At `12:00:00`,
after the first waypoint, the lookup returns. -/
theorem currentIntervalIn_fatal_after_skipped_midnight :
    (atSaoPaulo 6 0 0 0).DateIn saoPaulo = (2018, 11, 4) ∧
      (atSaoPaulo 6 0 0 0).ClockIn saoPaulo = (6, 0, 0) ∧
      (∀ w ∈ saoPauloSchedule.targetTimes, w.Time.DateIn saoPaulo = (2018, 11, 4)) ∧
      (atSaoPaulo 6 0 0 0).After saoPauloSchedule.endOfDay = false ∧
      (startOfDayIn saoPaulo (atSaoPaulo 6 0 0 0)).Time.Before (atSaoPaulo 6 0 0 0) = true ∧
      (atSaoPaulo 6 0 0 0).Before (endOfDayIn saoPaulo (atSaoPaulo 6 0 0 0)).Time = true ∧
      (startOfDayIn saoPaulo (atSaoPaulo 6 0 0 0)).Time.DateIn saoPaulo = (2018, 11, 3) ∧
      (startOfDayIn saoPaulo (atSaoPaulo 6 0 0 0)).Time.ClockIn saoPaulo = (23, 0, 0) ∧
      (scanIn saoPaulo (atSaoPaulo 6 0 0 0)
          (candidatesIn saoPaulo saoPauloSchedule (atSaoPaulo 6 0 0 0))).1 =
        startOfDayIn saoPaulo (atSaoPaulo 6 0 0 0) ∧
      saoPauloSchedule.currentIntervalIn saoPaulo (atSaoPaulo 6 0 0 0) = Lookup.fatal ∧
      saoPauloSchedule.currentIntervalIn saoPaulo (atSaoPaulo 12 0 0 0) =
        Lookup.ok ⟨⟨atSaoPaulo 7 0 0 0, 2700, 40⟩, ⟨atSaoPaulo 22 0 0 0, 4000, 100⟩⟩ := by
  decide

/-- Supporting fact: in a location whose offset never changes (here offset
zero), a timestamp that is not after `endOfDay` and lies strictly between
`00:00:00` and `23:59:59` of its own day gets an interval whose bounds enclose
it and lie on its calendar day, whatever the target times of the schedule
are. -/
theorem currentInterval_brackets (s : Schedule) (t : Time)
    (hend : t.After s.endOfDay = false)
    (h0 : (startOfDay t).Time.Before t = true) (h1 : t.Before (endOfDay t).Time = true) :
    ∃ iv, s.currentInterval t = Lookup.ok iv ∧
      iv.Start.Time.ns ≤ t.ns ∧ t.ns ≤ iv.End.Time.ns ∧
      sameDay iv.Start.Time t ∧ sameDay iv.End.Time t := by
  simp only [Time.Before, decide_eq_true_eq, startOfDay_ns, endOfDay_ns] at h0 h1
  obtain ⟨⟨_, _, b3, b4⟩, ⟨_, _, a3, a4⟩⟩ := scan_spec t (candidates s t)
  have hs : startOfDay t ∈ candidates s t := by simp [candidates]
  have he : endOfDay t ∈ candidates s t := by simp [candidates]
  have hb := b4 _ hs (by rw [startOfDay_ns]; exact h0)
  have ha := a4 _ he (by rw [endOfDay_ns]; exact h1)
  rw [startOfDay_ns] at hb
  rw [endOfDay_ns] at ha
  have hnd : nsPerDay = 86400000000000 := rfl
  have db : (scan t (candidates s t)).1.Time.absDay = t.absDay :=
    absDay_eq_of_between t _ hb (by omega)
  have da : (scan t (candidates s t)).2.Time.absDay = t.absDay :=
    absDay_eq_of_between t _ (by omega) (by omega)
  have eb : (scan t (candidates s t)).1.Time.Date = t.Date := by
    simp only [Time.Date, db]
  have ea : (scan t (candidates s t)).2.Time.Date = t.Date := by
    simp only [Time.Date, da]
  have hf := findTargetTimes_of_Day t (candidates s t) (by simp only [Time.Day, eb])
    (by simp only [Time.Day, ea])
  obtain ⟨f1, f2⟩ := fixDummyValues_Time ⟨(scan t (candidates s t)).1, (scan t (candidates s t)).2⟩
  refine ⟨fixDummyValues ⟨(scan t (candidates s t)).1, (scan t (candidates s t)).2⟩, ?_, ?_, ?_, ?_,
    ?_⟩
  · unfold Schedule.currentInterval
    rw [hend, hf]
    simp
  · rw [f1]; exact le_of_lt b3
  · rw [f2]; exact le_of_lt a3
  · rw [f1]; exact eb
  · rw [f2]; exact ea

/-- The supporting fact at the documented schedule, at `12:00`. -/
theorem currentInterval_brackets_witness :
    ∃ iv, exampleSchedule.currentInterval (at15 12 0 0 0) = Lookup.ok iv ∧
      iv.Start.Time.ns ≤ (at15 12 0 0 0).ns ∧ (at15 12 0 0 0).ns ≤ iv.End.Time.ns ∧
      sameDay iv.Start.Time (at15 12 0 0 0) ∧ sameDay iv.End.Time (at15 12 0 0 0) :=
  currentInterval_brackets exampleSchedule (at15 12 0 0 0) (by decide) (by decide) (by decide)

/-- C3: when `findTargetTimes` returns, the start is a candidate strictly
before the timestamp with no candidate strictly between it and the timestamp,
and the end is a candidate strictly after the timestamp with no candidate
strictly between the timestamp and it. -/
theorem findTargetTimes_closest (t : Time) (cs : List TimeStamp) (iv : Interval)
    (h : findTargetTimes t cs = some iv) :
    (iv.Start ∈ cs ∧ iv.Start.Time.Before t = true ∧
        ∀ c ∈ cs, ¬(iv.Start.Time.Before c.Time = true ∧ c.Time.Before t = true)) ∧
      (iv.End ∈ cs ∧ iv.End.Time.After t = true ∧
        ∀ c ∈ cs, ¬(c.Time.After t = true ∧ c.Time.Before iv.End.Time = true)) := by
  obtain ⟨rfl, d1, d2⟩ := findTargetTimes_eq_some t cs iv h
  obtain ⟨⟨b1, _, b3, b4⟩, ⟨a1, _, a3, a4⟩⟩ := scan_spec t cs
  obtain ⟨i1, i2⟩ := initialBounds_Day t
  simp only [Time.Before, Time.After, decide_eq_true_eq]
  refine ⟨⟨?_, b3, ?_⟩, ⟨?_, a3, ?_⟩⟩
  · rcases b1 with b1 | b1
    · rw [b1] at d1; exact absurd d1 i1
    · exact b1.1
  · rintro c hc ⟨h1, h2⟩
    have := b4 c hc h2
    omega
  · rcases a1 with a1 | a1
    · rw [a1] at d2; exact absurd d2 i2
    · exact a1.1
  · rintro c hc ⟨h1, h2⟩
    have := a4 c hc h1
    omega

/-- Witness of C3: with waypoints `07:00 -> (2700, 40)` and
`22:00 -> (4000, 100)`, `currentInterval(12:00)` is the interval
`07:00:(2700, 40)` to `22:00:(4000, 100)`, and these bounds are the closest
candidates on each side. -/
theorem findTargetTimes_closest_witness :
    exampleSchedule.currentInterval (at15 12 0 0 0) =
        Lookup.ok ⟨⟨at15 7 0 0 0, 2700, 40⟩, ⟨at15 22 0 0 0, 4000, 100⟩⟩ ∧
      ((⟨at15 7 0 0 0, 2700, 40⟩ : TimeStamp) ∈ candidates exampleSchedule (at15 12 0 0 0) ∧
        (at15 7 0 0 0).Before (at15 12 0 0 0) = true ∧
        ∀ c ∈ candidates exampleSchedule (at15 12 0 0 0),
          ¬((at15 7 0 0 0).Before c.Time = true ∧ c.Time.Before (at15 12 0 0 0) = true)) ∧
      ((⟨at15 22 0 0 0, 4000, 100⟩ : TimeStamp) ∈ candidates exampleSchedule (at15 12 0 0 0) ∧
        (at15 22 0 0 0).After (at15 12 0 0 0) = true ∧
        ∀ c ∈ candidates exampleSchedule (at15 12 0 0 0),
          ¬(c.Time.After (at15 12 0 0 0) = true ∧ c.Time.Before (at15 22 0 0 0) = true)) :=
  ⟨by decide,
    findTargetTimes_closest (at15 12 0 0 0) (candidates exampleSchedule (at15 12 0 0 0))
      ⟨⟨at15 7 0 0 0, 2700, 40⟩, ⟨at15 22 0 0 0, 4000, 100⟩⟩ (by decide)⟩

/-- C9: the day-of-month test of `findTargetTimes` decides the full calendar
day: the fatal branch is taken exactly when the selected before-bound or
after-bound is not on the year, month and day of the timestamp, so a returned
interval has both bounds on the timestamp's calendar day. -/
theorem findTargetTimes_fatal_iff (t : Time) (cs : List TimeStamp) :
    (findTargetTimes t cs = none ↔
        ¬(sameDay (scan t cs).1.Time t ∧ sameDay (scan t cs).2.Time t)) ∧
      (∀ iv, findTargetTimes t cs = some iv →
        iv = ⟨(scan t cs).1, (scan t cs).2⟩ ∧ sameDay iv.Start.Time t ∧ sameDay iv.End.Time t) := by
  obtain ⟨⟨_, b2, b3, _⟩, ⟨_, a2, a3, _⟩⟩ := scan_spec t cs
  have hnd : (0 : Int) < nsPerDay := by decide
  have eb : (scan t cs).1.Time.Day = t.Day ↔ sameDay (scan t cs).1.Time t := by
    constructor
    · intro h
      have := absDay_eq_of_Day_eq t _ (by omega) (by omega) h
      simp only [sameDay, Time.Date, this]
    · intro h
      simp only [sameDay] at h
      simp only [Time.Day, h]
  have ea : (scan t cs).2.Time.Day = t.Day ↔ sameDay (scan t cs).2.Time t := by
    constructor
    · intro h
      have := absDay_eq_of_Day_eq t _ (by omega) (by omega) h
      simp only [sameDay, Time.Date, this]
    · intro h
      simp only [sameDay] at h
      simp only [Time.Day, h]
  constructor
  · rw [← eb, ← ea]
    constructor
    · intro h hd
      rw [findTargetTimes_of_Day t cs hd.1 hd.2] at h
      cases h
    · intro h
      cases hf : findTargetTimes t cs with
      | none => rfl
      | some iv =>
        obtain ⟨_, d1, d2⟩ := findTargetTimes_eq_some t cs iv hf
        exact absurd ⟨d1, d2⟩ h
  · intro iv hf
    obtain ⟨rfl, d1, d2⟩ := findTargetTimes_eq_some t cs iv hf
    exact ⟨rfl, eb.1 d1, ea.1 d2⟩

/-- C4 (flat hold): when `currentInterval` succeeds and the bracket start is
the synthetic start-of-day boundary while the bracket end is a waypoint of the
schedule, the returned start carries the end's colour temperature and
brightness; when the bracket end is the synthetic end-of-day boundary and the
start is a waypoint, the returned end carries the start's values. The times
of both bounds are those of the bracket. -/
theorem currentInterval_flat_hold (s : Schedule) (t : Time) (r : Interval)
    (h : s.currentInterval t = Lookup.ok r) :
    ∃ iv, findTargetTimes t (candidates s t) = some iv ∧
      r.Start.Time = iv.Start.Time ∧ r.End.Time = iv.End.Time ∧
      (iv.Start = startOfDay t → iv.End ∈ s.targetTimes →
        r.Start.ColorTemperature = iv.End.ColorTemperature ∧
          r.Start.Brightness = iv.End.Brightness ∧ r.End = iv.End) ∧
      (iv.End = endOfDay t → iv.Start ∈ s.targetTimes →
        r.End.ColorTemperature = iv.Start.ColorTemperature ∧
          r.End.Brightness = iv.Start.Brightness ∧ r.Start = iv.Start) := by
  obtain ⟨_, iv, hf, rfl⟩ := currentInterval_eq_ok s t r h
  obtain ⟨f1, f2⟩ := fixDummyValues_Time iv
  refine ⟨iv, hf, f1, f2, ?_, ?_⟩
  · intro hs _
    obtain ⟨⟨st, sc, sb⟩, ⟨et, ec, eb⟩⟩ := iv
    simp only [startOfDay, TimeStamp.mk.injEq] at hs
    obtain ⟨_, rfl, rfl⟩ := hs
    simp only [fixDummyValues]
    split_ifs <;> simp_all
  · intro he _
    obtain ⟨⟨st, sc, sb⟩, ⟨et, ec, eb⟩⟩ := iv
    simp only [endOfDay, TimeStamp.mk.injEq] at he
    obtain ⟨_, rfl, rfl⟩ := he
    simp only [fixDummyValues]
    split_ifs <;> simp_all

/-- Witness of C4: with waypoints `07:00 -> (2700, 40)` and
`22:00 -> (4000, 100)`, `currentInterval(06:00)` has start `00:00:00` with
values `(2700, 40)` and end `07:00:(2700, 40)`. -/
theorem currentInterval_flat_hold_witness :
    exampleSchedule.currentInterval (at15 6 0 0 0) =
        Lookup.ok ⟨⟨at15 0 0 0 0, 2700, 40⟩, ⟨at15 7 0 0 0, 2700, 40⟩⟩ ∧
      ∃ iv, findTargetTimes (at15 6 0 0 0) (candidates exampleSchedule (at15 6 0 0 0)) = some iv ∧
        (⟨at15 0 0 0 0, 2700, 40⟩ : TimeStamp).Time = iv.Start.Time ∧
        (⟨at15 7 0 0 0, 2700, 40⟩ : TimeStamp).Time = iv.End.Time ∧
        (iv.Start = startOfDay (at15 6 0 0 0) → iv.End ∈ exampleSchedule.targetTimes →
          (2700 : Int) = iv.End.ColorTemperature ∧ (40 : Int) = iv.End.Brightness ∧
            (⟨at15 7 0 0 0, 2700, 40⟩ : TimeStamp) = iv.End) ∧
        (iv.End = endOfDay (at15 6 0 0 0) → iv.Start ∈ exampleSchedule.targetTimes →
          (2700 : Int) = iv.Start.ColorTemperature ∧ (40 : Int) = iv.Start.Brightness ∧
            (⟨at15 0 0 0 0, 2700, 40⟩ : TimeStamp) = iv.Start) :=
  ⟨by decide,
    currentInterval_flat_hold exampleSchedule (at15 6 0 0 0)
      ⟨⟨at15 0 0 0 0, 2700, 40⟩, ⟨at15 7 0 0 0, 2700, 40⟩⟩ (by decide)⟩

/-- Counterexample to C5: for a schedule without target times the lookup at
`12:00` succeeds and both bounds of the returned interval still carry the
placeholder values `(-1, -1)`. -/
theorem currentInterval_dummy_counterexample :
    emptySchedule.currentInterval (at15 12 0 0 0) =
        Lookup.ok ⟨⟨at15 0 0 0 0, -1, -1⟩, ⟨at15 23 59 59 0, -1, -1⟩⟩ ∧
      (⟨at15 0 0 0 0, -1, -1⟩ : TimeStamp).isDummy = true ∧
      (⟨at15 23 59 59 0, -1, -1⟩ : TimeStamp).isDummy = true := by
  decide

/-- C5, amended: when `currentInterval` returns an interval and at least one
of the two bracket bounds does not carry the placeholder values `(-1, -1)`,
neither bound of the returned interval carries them; when both bracket bounds
carry them, so do both returned bounds. -/
theorem currentInterval_concrete (s : Schedule) (t : Time) (r : Interval)
    (h : s.currentInterval t = Lookup.ok r) :
    ∃ iv, findTargetTimes t (candidates s t) = some iv ∧
      ((iv.Start.isDummy = false ∨ iv.End.isDummy = false) →
        r.Start.isDummy = false ∧ r.End.isDummy = false) ∧
      ((iv.Start.isDummy = true ∧ iv.End.isDummy = true) →
        r.Start.isDummy = true ∧ r.End.isDummy = true) := by
  obtain ⟨_, iv, hf, rfl⟩ := currentInterval_eq_ok s t r h
  refine ⟨iv, hf, ?_, ?_⟩
  · obtain ⟨⟨st, sc, sb⟩, ⟨et, ec, eb⟩⟩ := iv
    simp only [fixDummyValues, TimeStamp.isDummy]
    intro hd
    split_ifs <;> simp_all
  · obtain ⟨⟨st, sc, sb⟩, ⟨et, ec, eb⟩⟩ := iv
    simp only [fixDummyValues, TimeStamp.isDummy]
    intro hd
    split_ifs <;> simp_all

/-- Witness of C5, amended: at `06:00` of the documented schedule the bracket
end is a real waypoint, and both returned bounds are concrete. -/
theorem currentInterval_concrete_witness :
    ∃ iv, findTargetTimes (at15 6 0 0 0) (candidates exampleSchedule (at15 6 0 0 0)) = some iv ∧
      ((iv.Start.isDummy = false ∨ iv.End.isDummy = false) →
        (⟨at15 0 0 0 0, 2700, 40⟩ : TimeStamp).isDummy = false ∧
          (⟨at15 7 0 0 0, 2700, 40⟩ : TimeStamp).isDummy = false) ∧
      ((iv.Start.isDummy = true ∧ iv.End.isDummy = true) →
        (⟨at15 0 0 0 0, 2700, 40⟩ : TimeStamp).isDummy = true ∧
          (⟨at15 7 0 0 0, 2700, 40⟩ : TimeStamp).isDummy = true) :=
  currentInterval_concrete exampleSchedule (at15 6 0 0 0)
    ⟨⟨at15 0 0 0 0, 2700, 40⟩, ⟨at15 7 0 0 0, 2700, 40⟩⟩ (by decide)

/-- C6, failing inputs: all waypoints of the documented schedule lie on
2019-03-15 and neither `00:00:00` nor `23:59:59` of that day is after
`endOfDay`, yet at both instants the lookup takes the `log.Fatal` branch;
one nanosecond inside the day it returns. -/
theorem currentInterval_fatal_at_day_boundary :
    (∀ w ∈ exampleSchedule.targetTimes, w.Time.Date = (2019, 3, 15)) ∧
      (at15 0 0 0 0).Date = (2019, 3, 15) ∧ (at15 23 59 59 0).Date = (2019, 3, 15) ∧
      (at15 0 0 0 0).After exampleSchedule.endOfDay = false ∧
      (at15 23 59 59 0).After exampleSchedule.endOfDay = false ∧
      exampleSchedule.currentInterval (at15 0 0 0 0) = Lookup.fatal ∧
      exampleSchedule.currentInterval (at15 23 59 59 0) = Lookup.fatal ∧
      exampleSchedule.currentInterval (at15 0 0 0 1) =
        Lookup.ok ⟨⟨at15 0 0 0 0, 2700, 40⟩, ⟨at15 7 0 0 0, 2700, 40⟩⟩ := by
  decide

/-! ## Claim on the fast tick of `kelvin.go` -/

theorem foldl_fastTickStep {Light LightState : Type} (ops : LightOps Light LightState)
    (states : Int → Option LightState) (lights : List Light)
    (acc : List Light × List (Event LightState)) :
    lights.foldl (fastTickStep ops states) acc =
      (acc.1 ++ lights.map (fun l =>
          match states (ops.ID l) with
          | some reading => ops.update (ops.updateCurrentLightState l reading)
          | none => l),
        acc.2 ++ lights.flatMap (fun l =>
          match states (ops.ID l) with
          | some reading =>
            [Event.updateCurrentLightState (ops.ID l) reading, Event.update (ops.ID l)]
          | none => [Event.noState (ops.ID l)])) := by
  induction lights generalizing acc with
  | nil => simp
  | cons l ls ih =>
    rw [List.foldl_cons, ih]
    unfold fastTickStep
    cases hl : states (ops.ID l) <;> simp [hl]

/-- C8: in the fast tick every light is visited, in order, whatever the
bridge returned: a light with a reading gets `updateCurrentLightState(reading)`
followed by `update()`, a light without one is left unchanged and only draws a
warning, and what happens to a light depends on its own reading alone; an error
returned by the bridge only adds a warning in front. -/
theorem fastTick_visits_every_light {Light LightState : Type} (ops : LightOps Light LightState)
    (lights : List Light) (states : Int → Option LightState) (err : Option String) :
    (fastTick ops lights states err).1 =
        lights.map (fun l =>
          match states (ops.ID l) with
          | some reading => ops.update (ops.updateCurrentLightState l reading)
          | none => l) ∧
      (fastTick ops lights states err).2 =
        (match err with
          | some e => [Event.bridgeWarning e]
          | none => []) ++
        lights.flatMap (fun l =>
          match states (ops.ID l) with
          | some reading =>
            [Event.updateCurrentLightState (ops.ID l) reading, Event.update (ops.ID l)]
          | none => [Event.noState (ops.ID l)]) ∧
      (fastTick ops lights states err).1.length = lights.length := by
  unfold fastTick
  rw [foldl_fastTickStep]
  refine ⟨?_, ?_, ?_⟩
  · simp only [List.nil_append]
  · rfl
  · simp only [List.nil_append, List.length_map]

/-! ## Claims on `configuration_migration.go` -/

theorem digit_table : ∀ n : Nat, n < 10 →
    (decide ('0' ≤ Char.ofNat (48 + n)) && decide (Char.ofNat (48 + n) ≤ '9')) = true ∧
      digitVal (Char.ofNat (48 + n)) = (n : Int) := by
  decide

theorem twoDigits_spec (x : Int) (h0 : 0 ≤ x) (h1 : x < 100) :
    ∃ c1 c2 : Char, twoDigits x = [c1, c2] ∧
      (decide ('0' ≤ c1) && decide (c1 ≤ '9')) = true ∧
      (decide ('0' ≤ c2) && decide (c2 ≤ '9')) = true ∧
      digitVal c1 * 10 + digitVal c2 = x := by
  obtain ⟨a, ha⟩ := Int.eq_ofNat_of_zero_le (show 0 ≤ x / 10 by omega)
  obtain ⟨b, hb⟩ := Int.eq_ofNat_of_zero_le (show 0 ≤ x % 10 by omega)
  obtain ⟨a1, a2⟩ := digit_table a (by omega)
  obtain ⟨b1, b2⟩ := digit_table b (by omega)
  refine ⟨Char.ofNat (48 + a), Char.ofNat (48 + b), ?_, a1, b1, ?_⟩
  · simp [twoDigits, ha, hb]
  · rw [a2, b2]; omega

theorem getnum_two (c1 c2 : Char) (rest : List Char) (fixed : Bool)
    (h1 : (decide ('0' ≤ c1) && decide (c1 ≤ '9')) = true)
    (h2 : (decide ('0' ≤ c2) && decide (c2 ≤ '9')) = true) :
    getnum (c1 :: c2 :: rest) fixed = some (digitVal c1 * 10 + digitVal c2, rest) := by
  simp [getnum, isDigit, h1, h2]

theorem Clock_Date (h mi : Int) (hh : 0 ≤ h ∧ h < 24) (hmi : 0 ≤ mi ∧ mi < 60) :
    (Date 0 1 1 h mi 0 0).Clock = (h, mi, 0) := by
  have e3 : h / 24 = 0 := by omega
  have e4 : h % 24 = h := by omega
  have e5 : mi / 60 = 0 := by omega
  have e6 : mi % 60 = mi := by omega
  simp only [Date, norm, Time.Clock, nsPerSecond, secondsPerDay, secondsPerHour,
    secondsPerMinute, e3, e4, e5, e6]
  norm_num
  generalize daysSinceEpoch 0 + daysBeforeAt 0 = d
  refine ⟨?_, ?_, ?_⟩ <;> omega

theorem parseOld_some (v : List Char) (t : Time) (h : parseOld v = some t) :
    ∃ hr mi : Int, (0 ≤ hr ∧ hr < 24) ∧ (0 ≤ mi ∧ mi < 60) ∧ t = Date 0 1 1 hr mi 0 0 := by
  unfold parseOld at h
  split at h
  · cases h
  · rename_i hour v1 _
    split_ifs at h with c1
    split at h
    · cases h
    · rename_i v2 _
      split at h
      · cases h
      · rename_i mi v3 _
        split_ifs at h with c2 c3
        dsimp only at h
        split_ifs at h with c4 c5 d1 d2 <;>
          simp only [Bool.or_eq_true, decide_eq_true_eq, not_or, not_lt, not_le] at c1 c2 <;>
          refine ⟨_, mi, ?_, ⟨c2.1, c2.2⟩, (Option.some.inj h).symm⟩
        · simp only [Bool.and_eq_true, decide_eq_true_eq] at d1
          omega
        · omega
        · omega

theorem parseNew_format (hr mi : Int) (hh : 0 ≤ hr ∧ hr < 24) (hmi : 0 ≤ mi ∧ mi < 60) :
    parseNew (twoDigits hr ++ [':'] ++ twoDigits mi) = some (Date 0 1 1 hr mi 0 0) := by
  obtain ⟨a1, a2, ea, da1, da2, va⟩ := twoDigits_spec hr hh.1 (by omega)
  obtain ⟨b1, b2, eb, db1, db2, vb⟩ := twoDigits_spec mi hmi.1 (by omega)
  rw [ea, eb]
  have g1 := getnum_two a1 a2 (':' :: [b1, b2]) false da1 da2
  have g2 := getnum_two b1 b2 [] true db1 db2
  rw [va] at g1
  rw [vb] at g2
  simp [parseNew, g1, g2, skip, hh.1, hh.2, hmi.1, hmi.2]

theorem parseOld_format (hr mi : Int) (hh : 0 ≤ hr ∧ hr < 24) (hmi : 0 ≤ mi ∧ mi < 60) :
    parseOld (twoDigits hr ++ [':'] ++ twoDigits mi) = none := by
  obtain ⟨a1, a2, ea, da1, da2, va⟩ := twoDigits_spec hr hh.1 (by omega)
  obtain ⟨b1, b2, eb, db1, db2, vb⟩ := twoDigits_spec mi hmi.1 (by omega)
  rw [ea, eb]
  have g1 := getnum_two a1 a2 (':' :: [b1, b2]) false da1 da2
  have g2 := getnum_two b1 b2 [] true db1 db2
  rw [va] at g1
  rw [vb] at g2
  simp [parseOld, g1, g2, skip, hmi.1, hmi.2]

theorem formatNew_Date (hr mi : Int) (hh : 0 ≤ hr ∧ hr < 24) (hmi : 0 ≤ mi ∧ mi < 60) :
    formatNew (Date 0 1 1 hr mi 0 0) = twoDigits hr ++ [':'] ++ twoDigits mi := by
  simp only [formatNew, Clock_Date hr mi hh hmi]

/-- C7: `migrateTimestampFormat` on a string that parses in the old layout
`3:04PM` returns, without error, that time of day in the layout `15:04` (five
characters that parse back, in the new layout, to the same time; `10:00PM` gives
`22:00`); on any other string that parses in the layout `15:04` it returns the
string itself without error; on every other string it returns the empty string
and the `Invalid timestamp format` error. -/
theorem migrateTimestampFormat_spec (s : String) :
    (∀ t, parseOld s.data = some t →
        migrateTimestampFormat s = (String.mk (formatNew t), none) ∧
          (formatNew t).length = 5 ∧ parseNew (formatNew t) = some t) ∧
      (parseOld s.data = none → (∃ t, parseNew s.data = some t) →
        migrateTimestampFormat s = (s, none)) ∧
      (parseOld s.data = none → parseNew s.data = none →
        migrateTimestampFormat s = ("", some ("Invalid timestamp format: " ++ s))) ∧
      migrateTimestampFormat "10:00PM" = ("22:00", none) := by
  refine ⟨?_, ?_, ?_, by decide⟩
  · intro t ht
    obtain ⟨hr, mi, hh, hmi, rfl⟩ := parseOld_some _ _ ht
    refine ⟨by simp only [migrateTimestampFormat, ht], by simp [formatNew, twoDigits], ?_⟩
    rw [formatNew_Date hr mi hh hmi]
    exact parseNew_format hr mi hh hmi
  · rintro h1 ⟨t, h2⟩
    simp only [migrateTimestampFormat, h1, h2]
  · intro h1 h2
    simp only [migrateTimestampFormat, h1, h2]

/-- C10: `migrateTimestampFormat` is idempotent on its successful results: a
string it returns without error is returned unchanged, again without error. -/
theorem migrateTimestampFormat_idempotent (s r : String)
    (h : migrateTimestampFormat s = (r, none)) : migrateTimestampFormat r = (r, none) := by
  cases h1 : parseOld s.data with
  | some t =>
    obtain ⟨hr, mi, hh, hmi, rfl⟩ := parseOld_some _ _ h1
    simp only [migrateTimestampFormat, h1, Prod.mk.injEq, and_true] at h
    subst h
    simp only [migrateTimestampFormat, formatNew_Date hr mi hh hmi, parseOld_format hr mi hh hmi,
      parseNew_format hr mi hh hmi]
  | none =>
    cases h2 : parseNew s.data with
    | some t =>
      have e : migrateTimestampFormat s = (s, none) := by
        simp only [migrateTimestampFormat, h1, h2]
      rw [e] at h
      have hs : s = r := (Prod.mk.inj h).1
      rw [← hs]
      exact e
    | none =>
      simp only [migrateTimestampFormat, h1, h2, Prod.mk.injEq] at h
      exact absurd h.2 (by simp)

/-- Witness of C10: `10:00PM` migrates to `22:00`, and `22:00` migrates to
itself. -/
theorem migrateTimestampFormat_idempotent_witness :
    migrateTimestampFormat "10:00PM" = ("22:00", none) ∧
      migrateTimestampFormat "22:00" = ("22:00", none) :=
  ⟨by decide, migrateTimestampFormat_idempotent "10:00PM" "22:00" (by decide)⟩

end Kelvin
